import Mathlib

/-!
Shallow embedding of the raftor network transport / cluster-bootstrap layer
(src/network/network.rs and src/raft/network.rs), with theorems checking the
specification's claims about it.

Maps: the Rust code uses `HashMap<NodeId, _>` (for the peer registry and the
session map) and `BTreeMap<NodeId, RaftMetrics>` (for metrics).  Both are
modelled as association lists; `hmInsert` models `HashMap::insert`
(replace-in-place on key collision) and `btInsert` models `BTreeMap::insert`
(ordered insert, replace on key collision, keys kept strictly ascending).
-/

deriving instance DecidableEq for Except

namespace Raftor

/-- NodeId is `u64` in actix_raft; ids in this layer are produced by
`generate_node_id`, which reduces modulo 2^64. -/
abbrev NodeId := Nat

/-- Association-list lookup keyed by `NodeId` (models map lookup). -/
def alookup (k : NodeId) : List (NodeId × α) → Option α
  | [] => none
  | (k', v) :: t => if k' = k then some v else alookup k t

/-- Models `HashMap::insert`: replaces the value at an existing key, otherwise
appends a fresh entry. -/
def hmInsert (l : List (NodeId × α)) (k : NodeId) (v : α) : List (NodeId × α) :=
  match l with
  | [] => [(k, v)]
  | (k', v') :: t => if k' = k then (k, v) :: t else (k', v') :: hmInsert t k v

/-- Models `BTreeMap::insert`: keeps the entry list sorted by strictly
ascending key, replacing the value when the key is already present. -/
def btInsert (l : List (NodeId × α)) (k : NodeId) (v : α) : List (NodeId × α) :=
  match l with
  | [] => [(k, v)]
  | (k', v') :: t =>
    if k < k' then (k, v) :: (k', v') :: t
    else if k' = k then (k, v) :: t
    else (k', v') :: btInsert t k v

/-- Keys of an association list, in iteration order. -/
def keysOf (l : List (NodeId × α)) : List NodeId := l.map Prod.fst

/-- Modelled from the spec: `generate_node_id` lives in `crate::utils`, outside
the given sources; the spec requires only that it is a pure deterministic
derivation of a `u64` id from the textual address.  Modelled as a simple
polynomial string hash reduced modulo 2^64. -/
def generate_node_id (addr : String) : NodeId :=
  addr.data.foldl (fun h c => (h * 31 + c.toNat) % 2 ^ 64) 5381

/-- `NetworkState` from src/network/network.rs. -/
inductive NetworkState
  | Initialized
  | SingleNode
  | Cluster
deriving DecidableEq, Repr

/-- Peer descriptor: `Node::new(id, self.id, peer_addr)` from
src/network/network.rs line 61.  The `Node` actor itself lives outside the
given sources; modelled from the spec as the descriptor holding the arguments
it is constructed with (peer id, local id, peer address). -/
structure Node where
  id : NodeId
  localId : NodeId
  addr : String
deriving DecidableEq, Repr

/-- Modelled from the spec: `RaftNode::new(id, members, network_addr)`
(the consensus-engine wrapper in `crate::raft`, outside the given sources)
stores the local id and the initial membership set it is constructed with;
the handle back to the core carries no data relevant here. -/
structure RaftNode where
  id : NodeId
  members : List NodeId
deriving DecidableEq, Repr

/-- `InitWithConfig` from actix_raft admin commands: carries the initial
membership list given to `InitWithConfig::new`. -/
structure InitWithConfig where
  members : List NodeId
deriving DecidableEq, Repr

/-- Inbound session handle (`Addr<NodeSession>`); opaque to this layer,
modelled as a token. -/
abbrev NodeSessionAddr := Nat

/-- Raft role reported in metrics (actix_raft's metrics `State`). -/
inductive RaftRole
  | NonVoter
  | Follower
  | Candidate
  | Leader
deriving DecidableEq, Repr

/-- `MembershipConfig` fields printed by the metrics handler. -/
structure MembershipConfig where
  is_in_joint_consensus : Bool
  members : List NodeId
  non_voters : List NodeId
  removing : List NodeId
deriving DecidableEq, Repr

/-- `RaftMetrics` snapshot from actix_raft, with the fields this layer reads. -/
structure RaftMetrics where
  id : NodeId
  state : RaftRole
  current_leader : Option NodeId
  current_term : Nat
  last_log_index : Nat
  last_applied : Nat
  membership_config : MembershipConfig
deriving DecidableEq, Repr

/-- The `Network` struct from src/network/network.rs.  `Addr<Listener>` is an
opaque handle, modelled as `Unit`. -/
structure Network where
  id : NodeId
  address : Option String
  raft : Option RaftNode
  peers : List String
  nodes : List (NodeId × Node)
  nodes_connected : List NodeId
  listener : Option Unit
  state : NetworkState
  metrics : List (NodeId × RaftMetrics)
  sessions : List (NodeId × NodeSessionAddr)
deriving DecidableEq, Repr

/-- `Network::new`. -/
def Network.new : Network where
  id := 0
  address := none
  peers := []
  nodes := []
  raft := none
  listener := none
  nodes_connected := []
  state := NetworkState.Initialized
  metrics := []
  sessions := []

/-- `Network::peers` (setter; named `setPeers` because the struct field is
already called `peers`): appends each configured peer address. -/
def Network.setPeers (n : Network) (ps : List String) : Network :=
  { n with peers := n.peers ++ ps }

/-- `Network::register_node`: derives the id from the peer address and inserts
a descriptor into the registry, overwriting any prior entry for that id. -/
def Network.register_node (n : Network) (peer_addr : String) : Network :=
  let id := generate_node_id peer_addr
  let node : Node := ⟨id, n.id, peer_addr⟩
  { n with nodes := hmInsert n.nodes id node }

/-- `Network::get_node`. -/
def Network.get_node (n : Network) (id : NodeId) : Option Node :=
  alookup id n.nodes

/-- `Network::listen`: records the bind address and derives the local id. -/
def Network.listen (n : Network) (address : String) : Network :=
  { n with address := some address, id := generate_node_id address }

/-- The settle delay passed to `ctx.run_later` (`Duration::new(10, 0)`). -/
def settleDelaySeconds : Nat := 10

/-- The per-peer step of the registration loop in `Network::started`
(lines 89-93): register the peer unless its address equals the bind
address. -/
def registerStep (network_address : String) (acc : Network) (peer : String) :
    Network :=
  if peer ≠ network_address then acc.register_node peer else acc

/-- `Network::started` (src/network/network.rs lines 79-94, before the timer):
unwraps the bind address (`none` models the panic), spawns the listener,
pre-seeds the connected list with the local id, and registers every configured
peer whose address differs from the bind address. -/
def Network.started (n : Network) : Option Network :=
  match n.address with
  | none => none
  | some network_address =>
    let n1 := { n with listener := some (),
                       nodes_connected := n.nodes_connected ++ [n.id] }
    some (n1.peers.foldl (registerStep network_address) n1)

/-- The `run_later` closure from `Network::started` (lines 95-126): on settle
timer expiry it reads the connected-peer count and transitions the state;
on the Cluster branch it constructs the engine and returns the
`InitWithConfig` command sent to it (`none` when no command is sent). -/
def Network.settleTimerFire (n : Network) : Network × Option InitWithConfig :=
  let num_nodes := n.nodes_connected.length
  if num_nodes > 1 then
    let members := n.nodes_connected
    let raft_node : RaftNode := ⟨n.id, members⟩
    let n' := { n with state := NetworkState.Cluster, raft := some raft_node }
    (n', some ⟨n'.nodes_connected⟩)
  else
    ({ n with state := NetworkState.SingleNode }, none)

/-- Modelled from the spec: `MsgTypes` (the wire RPC-kind tag, defined in
`crate::network`, outside the given sources).  The spec's recognized kinds are
exactly the three consensus RPCs; the handler's wildcard arm shows the enum
has at least one further variant, represented here by `Other`. -/
inductive MsgTypes
  | AppendEntriesRequest
  | VoteRequest
  | InstallSnapshotRequest
  | Other
deriving DecidableEq, Repr

/-- Whether a kind is one of the three recognized consensus RPC kinds. -/
def MsgTypes.recognized : MsgTypes → Bool
  | .AppendEntriesRequest => true
  | .VoteRequest => true
  | .InstallSnapshotRequest => true
  | .Other => false

/-- actix_raft `messages::AppendEntriesRequest<MemoryStorageData>`; only the
routing-relevant `target` field matters to this layer, the rest of the typed
payload is kept opaque as a token. -/
structure AppendEntriesRequest where
  target : NodeId
  payload : Nat
deriving DecidableEq, Repr

/-- actix_raft `messages::VoteRequest`. -/
structure VoteRequest where
  target : NodeId
  payload : Nat
deriving DecidableEq, Repr

/-- actix_raft `messages::InstallSnapshotRequest`. -/
structure InstallSnapshotRequest where
  target : NodeId
  payload : Nat
deriving DecidableEq, Repr

/-- A typed request of one of the three recognized kinds. -/
inductive RaftRequest
  | appendEntries (r : AppendEntriesRequest)
  | vote (r : VoteRequest)
  | installSnapshot (r : InstallSnapshotRequest)
deriving DecidableEq, Repr

/-- Parse a non-empty all-digit character list as a natural number. -/
def digitsToNat (cs : List Char) : Option Nat :=
  match cs with
  | [] => none
  | _ => cs.foldlM (fun acc c =>
      if c.isDigit then some (acc * 10 + (c.toNat - 48)) else none) 0

/-- Modelled from the spec: `serde_json::from_slice` for the typed request
structures (external library).  The wire payload is a string; modelled as a
structured encoding `target payload` that decodes exactly when well formed,
so that malformed bodies exist (decode returns `none`). -/
def decodeBody (s : String) : Option (NodeId × Nat) :=
  match s.data.splitOn ' ' with
  | [t, p] =>
    match digitsToNat t, digitsToNat p with
    | some tv, some pv => some (tv, pv)
    | _, _ => none
  | _ => none

/-- Decode an `AppendEntriesRequest` from a wire body. -/
def decodeAppendEntries (s : String) : Option AppendEntriesRequest :=
  (decodeBody s).map fun (t, p) => ⟨t, p⟩

/-- Decode a `VoteRequest` from a wire body. -/
def decodeVote (s : String) : Option VoteRequest :=
  (decodeBody s).map fun (t, p) => ⟨t, p⟩

/-- Decode an `InstallSnapshotRequest` from a wire body. -/
def decodeInstallSnapshot (s : String) : Option InstallSnapshotRequest :=
  (decodeBody s).map fun (t, p) => ⟨t, p⟩

/-- Outcome of the inbound `SendToRaft` handler.  `reply` is an immediate
`Response::reply` with the handler's `Result<String, ()>`; `engineCall` is
`Response::fut` forwarding the decoded typed request to the engine (whose
typed response is then serialized back); `panicked` is the `.unwrap()` abort
on a decode failure. -/
inductive SendToRaftResult
  | reply (r : Except Unit String)
  | engineCall (req : RaftRequest)
  | panicked
deriving DecidableEq, Repr

/-- `Handler<SendToRaft> for Network` (src/network/network.rs lines 137-188).
Returns the (unchanged) actor state together with the outcome. -/
def Network.handleSendToRaft (n : Network) (type_id : MsgTypes) (body : String) :
    Network × SendToRaftResult :=
  let res :=
    match n.raft with
    | some _raft =>
      match type_id with
      | MsgTypes.AppendEntriesRequest =>
        match decodeAppendEntries body with
        | some raft_msg => SendToRaftResult.engineCall (RaftRequest.appendEntries raft_msg)
        | none => SendToRaftResult.panicked
      | MsgTypes.VoteRequest =>
        match decodeVote body with
        | some raft_msg => SendToRaftResult.engineCall (RaftRequest.vote raft_msg)
        | none => SendToRaftResult.panicked
      | MsgTypes.InstallSnapshotRequest =>
        match decodeInstallSnapshot body with
        | some raft_msg => SendToRaftResult.engineCall (RaftRequest.installSnapshot raft_msg)
        | none => SendToRaftResult.panicked
      | _ => SendToRaftResult.reply (Except.ok "")
    | none => SendToRaftResult.reply (Except.ok "")
  (n, res)

/-- `Handler<PeerConnected> for Network` (lines 194-202): push the id onto the
connected list and insert/overwrite the session handle. -/
def Network.handlePeerConnected (n : Network) (id : NodeId)
    (session : NodeSessionAddr) : Network :=
  { n with nodes_connected := n.nodes_connected ++ [id],
           sessions := hmInsert n.sessions id session }

/-- `Handler<RaftMetrics> for Network` (lines 207-218): print a summary line
(side effect dropped) and upsert the snapshot by node id into the
`BTreeMap`. -/
def Network.handleRaftMetrics (n : Network) (msg : RaftMetrics) : Network :=
  { n with metrics := btInsert n.metrics msg.id msg }

/-- `ERR_ROUTING_FAILURE` from src/raft/network.rs line 12. -/
def ERR_ROUTING_FAILURE : String := "Routing failures are not allowed in tests."

/-- Outcome of an outbound routing handler in src/raft/network.rs.  `panicked`
is the `.unwrap()` abort when `get_node` returns `None` (its diagnostic is
`Option::unwrap`'s fixed message); `sent` forwards the typed request to the
destination peer's handle. -/
inductive RouteOutcome
  | panicked
  | sent (dest : Node) (req : RaftRequest)
deriving DecidableEq, Repr

/-- `Handler<messages::AppendEntriesRequest<Data>> for Network`
(src/raft/network.rs lines 16-27), up to the suspension point: look up the
destination and forward `SendRaftMessage(msg)` to it. -/
def Network.routeAppendEntries (n : Network) (msg : AppendEntriesRequest) :
    RouteOutcome :=
  match n.get_node msg.target with
  | none => RouteOutcome.panicked
  | some node => RouteOutcome.sent node (RaftRequest.appendEntries msg)

/-- `Handler<messages::VoteRequest> for Network` (lines 29-40). -/
def Network.routeVote (n : Network) (msg : VoteRequest) : RouteOutcome :=
  match n.get_node msg.target with
  | none => RouteOutcome.panicked
  | some node => RouteOutcome.sent node (RaftRequest.vote msg)

/-- `Handler<messages::InstallSnapshotRequest> for Network` (lines 42-53). -/
def Network.routeInstallSnapshot (n : Network) (msg : InstallSnapshotRequest) :
    RouteOutcome :=
  match n.get_node msg.target with
  | none => RouteOutcome.panicked
  | some node => RouteOutcome.sent node (RaftRequest.installSnapshot msg)

/-- Outcome of the response-relay continuation
`.map_err(|_, _, _| panic!(ERR_ROUTING_FAILURE)).and_then(|res, _, _| fut::result(res))`:
a mailbox delivery failure aborts with `ERR_ROUTING_FAILURE`, otherwise the
peer's typed result is resolved back to the engine as-is. -/
inductive RelayOutcome (ρ : Type)
  | panicked (diagnostic : String)
  | result (r : Except Unit ρ)
deriving DecidableEq, Repr

/-- The relay continuation of each outbound handler, applied to the outcome of
the `node.send` future (`Except Unit` models `MailboxError`). -/
def relayResponse (mailbox : Except Unit (Except Unit ρ)) : RelayOutcome ρ :=
  match mailbox with
  | Except.error _ => RelayOutcome.panicked ERR_ROUTING_FAILURE
  | Except.ok res => RelayOutcome.result res

/-- The engine-presence invariant of the core: a consensus engine handle is
held only in the `Cluster` state. -/
def ClusterInv (n : Network) : Prop :=
  ∀ r : RaftNode, n.raft = some r → n.state = NetworkState.Cluster

/-- A concrete metrics snapshot for node `i` at term `term`, used to
instantiate theorems at concrete inputs. -/
def exMetrics (i term : Nat) : RaftMetrics :=
  ⟨i, RaftRole.Follower, none, term, 0, 0, ⟨false, [i], [], []⟩⟩

/-! ### Lemmas about the map models -/

theorem alookup_hmInsert_self (l : List (NodeId × α)) (k : NodeId) (v : α) :
    alookup k (hmInsert l k v) = some v := by
  induction l with
  | nil => simp [hmInsert, alookup]
  | cons hd t ih =>
    obtain ⟨k', v'⟩ := hd
    by_cases hk : k' = k
    · simp [hmInsert, hk, alookup]
    · simp [hmInsert, hk, alookup, ih]

theorem alookup_hmInsert_ne (l : List (NodeId × α)) (k k' : NodeId) (v : α)
    (h : k' ≠ k) : alookup k' (hmInsert l k v) = alookup k' l := by
  induction l with
  | nil => simp [hmInsert, alookup, Ne.symm h]
  | cons hd t ih =>
    obtain ⟨k'', v''⟩ := hd
    by_cases hk : k'' = k
    · subst hk
      simp [hmInsert, alookup, Ne.symm h]
    · simp only [hmInsert, if_neg hk, alookup]
      by_cases hq : k'' = k'
      · simp [hq]
      · simp [hq, ih]

theorem hmInsert_idem (l : List (NodeId × α)) (k : NodeId) (v : α) :
    hmInsert (hmInsert l k v) k v = hmInsert l k v := by
  induction l with
  | nil => simp [hmInsert]
  | cons hd t ih =>
    obtain ⟨k', v'⟩ := hd
    by_cases hk : k' = k
    · simp [hmInsert, hk]
    · simp [hmInsert, hk, ih]

theorem alookup_btInsert_self (l : List (NodeId × α)) (k : NodeId) (v : α) :
    alookup k (btInsert l k v) = some v := by
  induction l with
  | nil => simp [btInsert, alookup]
  | cons hd t ih =>
    obtain ⟨k', v'⟩ := hd
    by_cases hlt : k < k'
    · simp [btInsert, hlt, alookup]
    · by_cases heq : k' = k
      · simp [btInsert, hlt, heq, alookup]
      · simp [btInsert, hlt, heq, alookup, ih]

theorem alookup_btInsert_ne (l : List (NodeId × α)) (k k' : NodeId) (v : α)
    (h : k' ≠ k) : alookup k' (btInsert l k v) = alookup k' l := by
  induction l with
  | nil => simp [btInsert, alookup, Ne.symm h]
  | cons hd t ih =>
    obtain ⟨k'', v''⟩ := hd
    by_cases hlt : k < k''
    · simp [btInsert, hlt, alookup, Ne.symm h]
    · by_cases heq : k'' = k
      · subst heq
        simp [btInsert, alookup, Ne.symm h]
      · simp only [btInsert, if_neg hlt, if_neg heq, alookup]
        by_cases hq : k'' = k'
        · simp [hq]
        · simp [hq, ih]

theorem mem_keysOf_btInsert (l : List (NodeId × α)) (k : NodeId) (v : α)
    (x : NodeId) (hx : x ∈ keysOf (btInsert l k v)) : x = k ∨ x ∈ keysOf l := by
  induction l with
  | nil =>
    simp [btInsert, keysOf] at hx
    exact Or.inl hx
  | cons hd t ih =>
    obtain ⟨k', v'⟩ := hd
    by_cases hlt : k < k'
    · simp [btInsert, hlt, keysOf] at hx ⊢
      tauto
    · by_cases heq : k' = k
      · simp [btInsert, hlt, heq, keysOf] at hx ⊢
        tauto
      · simp only [btInsert, if_neg hlt, if_neg heq, keysOf, List.map_cons,
          List.mem_cons] at hx ⊢
        rcases hx with rfl | hx'
        · tauto
        · rcases ih hx' with h1 | h2 <;> tauto

theorem pairwise_keysOf_btInsert (l : List (NodeId × α)) (k : NodeId) (v : α)
    (h : List.Pairwise (· < ·) (keysOf l)) :
    List.Pairwise (· < ·) (keysOf (btInsert l k v)) := by
  induction l with
  | nil => simp [btInsert, keysOf]
  | cons hd t ih =>
    obtain ⟨k', v'⟩ := hd
    simp only [keysOf, List.map_cons, List.pairwise_cons] at h
    obtain ⟨h1, h2⟩ := h
    by_cases hlt : k < k'
    · simp only [btInsert, if_pos hlt, keysOf, List.map_cons, List.pairwise_cons]
      refine ⟨?_, h1, h2⟩
      intro x hx
      rcases List.mem_cons.mp hx with rfl | hx'
      · exact hlt
      · exact lt_trans hlt (h1 x hx')
    · by_cases heq : k' = k
      · simp only [btInsert, if_neg hlt, if_pos heq, keysOf, List.map_cons,
          List.pairwise_cons]
        refine ⟨?_, h2⟩
        intro x hx
        exact heq ▸ h1 x hx
      · have hk'k : k' < k := by
          rcases Nat.lt_trichotomy k k' with hc | hc | hc
          · exact absurd hc hlt
          · exact absurd hc.symm heq
          · exact hc
        simp only [btInsert, if_neg hlt, if_neg heq, keysOf, List.map_cons,
          List.pairwise_cons]
        refine ⟨?_, ih h2⟩
        intro x hx
        rcases mem_keysOf_btInsert t k v x hx with rfl | hx'
        · exact hk'k
        · exact h1 x hx'

theorem registerStep_fields (addr : String) (n : Network) (peer : String) :
    (registerStep addr n peer).raft = n.raft
    ∧ (registerStep addr n peer).state = n.state
    ∧ (registerStep addr n peer).nodes_connected = n.nodes_connected
    ∧ (registerStep addr n peer).id = n.id := by
  unfold registerStep Network.register_node
  split <;> simp

theorem foldl_registerStep_fields (addr : String) (l : List String) :
    ∀ m : Network,
      (l.foldl (registerStep addr) m).raft = m.raft
      ∧ (l.foldl (registerStep addr) m).state = m.state
      ∧ (l.foldl (registerStep addr) m).nodes_connected = m.nodes_connected
      ∧ (l.foldl (registerStep addr) m).id = m.id := by
  induction l with
  | nil => intro m; simp
  | cons p t ih =>
    intro m
    have hs := registerStep_fields addr m p
    have ht := ih (registerStep addr m p)
    simp only [List.foldl_cons]
    exact ⟨ht.1.trans hs.1, ht.2.1.trans hs.2.1,
      ht.2.2.1.trans hs.2.2.1, ht.2.2.2.trans hs.2.2.2⟩

theorem started_fields (n n' : Network) (hs : n.started = some n') :
    n'.raft = n.raft ∧ n'.state = n.state
    ∧ n'.nodes_connected = n.nodes_connected ++ [n.id] ∧ n'.id = n.id := by
  cases haddr : n.address with
  | none => simp [Network.started, haddr] at hs
  | some a =>
    simp only [Network.started, haddr, Option.some.injEq] at hs
    subst hs
    exact ⟨(foldl_registerStep_fields a n.peers _).1,
      (foldl_registerStep_fields a n.peers _).2.1,
      (foldl_registerStep_fields a n.peers _).2.2.1,
      (foldl_registerStep_fields a n.peers _).2.2.2⟩

/-! ### Claim theorems -/

/-- Claim C1: starting from ClusterState `Initialized`, when the fixed
10-time-unit settle timer expires, the state transitions to `Cluster` when the
connected-peer list (pre-seeded with the local id at startup) has length
strictly greater than 1, and otherwise to `SingleNode`; in particular a node
configured with no peers ends up `SingleNode` with its connected list holding
exactly its own id. -/
theorem settle_timer_bootstrap_decision (n : Network)
    (h : n.state = NetworkState.Initialized) :
    settleDelaySeconds = 10
    ∧ (n.settleTimerFire).1.state =
        (if 1 < n.nodes_connected.length then NetworkState.Cluster
         else NetworkState.SingleNode)
    ∧ ∀ addr : String, ∃ n' : Network,
        (Network.new.listen addr).started = some n'
        ∧ n'.nodes_connected = [n'.id]
        ∧ (n'.settleTimerFire).1.state = NetworkState.SingleNode := by
  refine ⟨rfl, ?_, ?_⟩
  · unfold Network.settleTimerFire
    by_cases h1 : 1 < n.nodes_connected.length
    · simp [h1]
    · simp [h1]
  · intro addr
    exact ⟨_, rfl, rfl, rfl⟩

/-- Witness for C1 at the concrete fresh network. -/
theorem settle_timer_bootstrap_decision_witness :
    Network.new.state = NetworkState.Initialized
    ∧ (Network.new.settleTimerFire).1.state = NetworkState.SingleNode := by
  have h := settle_timer_bootstrap_decision Network.new rfl
  exact ⟨rfl, h.2.1.trans (by decide)⟩

/-- Claim C2: on the Cluster transition the consensus engine is constructed
with the local id and the connected-peer list at timer expiry as its initial
membership, and the `InitWithConfig` command sent to it carries that same
membership list. -/
theorem cluster_transition_engine_membership (n : Network)
    (h : 1 < n.nodes_connected.length) :
    (n.settleTimerFire).1.raft = some ⟨n.id, n.nodes_connected⟩
    ∧ (n.settleTimerFire).2 = some ⟨n.nodes_connected⟩ := by
  constructor
  · simp [Network.settleTimerFire, h]
  · simp [Network.settleTimerFire, h]

/-- Witness for C2 on a network with two connected peers. -/
theorem cluster_transition_engine_membership_witness :
    ((((Network.new.handlePeerConnected 1 101).handlePeerConnected 2
        102).settleTimerFire).1.raft = some ⟨0, [1, 2]⟩)
    ∧ ((((Network.new.handlePeerConnected 1 101).handlePeerConnected 2
        102).settleTimerFire).2 = some ⟨[1, 2]⟩) := by
  have h := cluster_transition_engine_membership
    ((Network.new.handlePeerConnected 1 101).handlePeerConnected 2 102)
    (by decide)
  exact ⟨h.1, h.2⟩

/-- Claim C3: an inbound RPC envelope gets an immediate empty success (and no
engine call) whenever no engine is present or the kind is unrecognized. -/
theorem inbound_empty_success (n : Network) (k : MsgTypes) (body : String)
    (h : n.raft = none ∨ k.recognized = false) :
    (n.handleSendToRaft k body).2 = SendToRaftResult.reply (Except.ok "") := by
  rcases h with h | h
  · simp [Network.handleSendToRaft, h]
  · cases k with
    | AppendEntriesRequest => exact absurd h (by simp [MsgTypes.recognized])
    | VoteRequest => exact absurd h (by simp [MsgTypes.recognized])
    | InstallSnapshotRequest => exact absurd h (by simp [MsgTypes.recognized])
    | Other => cases hr : n.raft <;> simp [Network.handleSendToRaft, hr]

/-- Witness for C3 on the engine-less fresh network. -/
theorem inbound_empty_success_witness :
    (Network.new.handleSendToRaft MsgTypes.AppendEntriesRequest "3 7").2
      = SendToRaftResult.reply (Except.ok "") :=
  inbound_empty_success Network.new MsgTypes.AppendEntriesRequest "3 7"
    (Or.inl rfl)

/-- Claim C4: an outbound RPC of each of the three kinds aborts (it returns no
error result) when the destination id is absent from the peer registry, and
when present the typed request is forwarded to that peer's handle; the relay
continuation resolves the peer's typed response back unchanged. -/
theorem outbound_routing_policy (n : Network) :
    (∀ msg : AppendEntriesRequest,
        (n.get_node msg.target = none →
          n.routeAppendEntries msg = RouteOutcome.panicked)
      ∧ ∀ node, n.get_node msg.target = some node →
          n.routeAppendEntries msg
            = RouteOutcome.sent node (RaftRequest.appendEntries msg))
    ∧ (∀ msg : VoteRequest,
        (n.get_node msg.target = none →
          n.routeVote msg = RouteOutcome.panicked)
      ∧ ∀ node, n.get_node msg.target = some node →
          n.routeVote msg = RouteOutcome.sent node (RaftRequest.vote msg))
    ∧ (∀ msg : InstallSnapshotRequest,
        (n.get_node msg.target = none →
          n.routeInstallSnapshot msg = RouteOutcome.panicked)
      ∧ ∀ node, n.get_node msg.target = some node →
          n.routeInstallSnapshot msg
            = RouteOutcome.sent node (RaftRequest.installSnapshot msg))
    ∧ ∀ (ρ : Type) (res : Except Unit ρ),
        relayResponse (Except.ok res) = RelayOutcome.result res := by
  refine ⟨?_, ?_, ?_, ?_⟩
  · intro msg
    exact ⟨fun h => by simp [Network.routeAppendEntries, h],
      fun node h => by simp [Network.routeAppendEntries, h]⟩
  · intro msg
    exact ⟨fun h => by simp [Network.routeVote, h],
      fun node h => by simp [Network.routeVote, h]⟩
  · intro msg
    exact ⟨fun h => by simp [Network.routeInstallSnapshot, h],
      fun node h => by simp [Network.routeInstallSnapshot, h]⟩
  · intro ρ res
    rfl

/-- Witness for C4 with one registered peer: routing to an unregistered id
panics, routing to the registered id forwards, and the relay returns an `ok`
response unchanged. -/
theorem outbound_routing_policy_witness :
    (Network.new.register_node "b").routeAppendEntries ⟨99, 0⟩
        = RouteOutcome.panicked
    ∧ (Network.new.register_node "b").routeVote ⟨generate_node_id "b", 7⟩
        = RouteOutcome.sent ⟨generate_node_id "b", 0, "b"⟩
            (RaftRequest.vote ⟨generate_node_id "b", 7⟩)
    ∧ relayResponse (Except.ok (Except.ok (37 : Nat)))
        = RelayOutcome.result (Except.ok 37) := by
  have h := outbound_routing_policy (Network.new.register_node "b")
  exact ⟨(h.1 ⟨99, 0⟩).1 (by decide),
    (h.2.1 ⟨generate_node_id "b", 7⟩).2 ⟨generate_node_id "b", 0, "b"⟩
      (by decide),
    h.2.2.2 Nat (Except.ok 37)⟩

/-- Claim C5: with an engine present, an inbound envelope of a recognized kind
whose body fails to decode makes the handler panic (no error result, no engine
call). -/
theorem decode_failure_panics (n : Network) (k : MsgTypes) (body : String)
    (hr : n.raft.isSome = true) (hk : k.recognized = true)
    (hd : decodeBody body = none) :
    (n.handleSendToRaft k body).2 = SendToRaftResult.panicked := by
  obtain ⟨r, hr'⟩ := Option.isSome_iff_exists.mp hr
  cases k with
  | AppendEntriesRequest =>
    simp [Network.handleSendToRaft, hr', decodeAppendEntries, hd]
  | VoteRequest =>
    simp [Network.handleSendToRaft, hr', decodeVote, hd]
  | InstallSnapshotRequest =>
    simp [Network.handleSendToRaft, hr', decodeInstallSnapshot, hd]
  | Other => exact absurd hk (by simp [MsgTypes.recognized])

/-- Witness for C5 on a clustered network and a malformed body. -/
theorem decode_failure_panics_witness :
    ((((Network.new.handlePeerConnected 1 101).handlePeerConnected 2
        102).settleTimerFire).1.handleSendToRaft MsgTypes.VoteRequest "x").2
      = SendToRaftResult.panicked :=
  decode_failure_panics _ MsgTypes.VoteRequest "x" (by decide) rfl (by decide)

/-- Claim C6: every operation of the core preserves the invariant that the
engine handle is present only in the `Cluster` state; in particular the handle
is absent while `Initialized` and stays absent in `SingleNode`. -/
theorem engine_presence_invariant :
    ClusterInv Network.new
    ∧ (∀ n ps, ClusterInv n → ClusterInv (n.setPeers ps))
    ∧ (∀ n a, ClusterInv n → ClusterInv (n.register_node a))
    ∧ (∀ n a, ClusterInv n → ClusterInv (n.listen a))
    ∧ (∀ n n', ClusterInv n → n.started = some n' → ClusterInv n')
    ∧ (∀ n, n.state = NetworkState.Initialized → ClusterInv n →
        ClusterInv (n.settleTimerFire).1)
    ∧ (∀ n k b, ClusterInv n → ClusterInv (n.handleSendToRaft k b).1)
    ∧ (∀ n i s, ClusterInv n → ClusterInv (n.handlePeerConnected i s))
    ∧ (∀ n m, ClusterInv n → ClusterInv (n.handleRaftMetrics m))
    ∧ (∀ n, n.state = NetworkState.Initialized → ClusterInv n →
        n.raft = none)
    ∧ (∀ n, n.state = NetworkState.SingleNode → ClusterInv n →
        n.raft = none) := by
  have absent : ∀ n : Network, n.state ≠ NetworkState.Cluster → ClusterInv n →
      n.raft = none := by
    intro n hs hinv
    cases hr : n.raft with
    | none => rfl
    | some r => exact absurd (hinv r hr) hs
  refine ⟨?_, ?_, ?_, ?_, ?_, ?_, ?_, ?_, ?_, ?_, ?_⟩
  · intro r hr
    simp [Network.new] at hr
  · exact fun n ps h => h
  · exact fun n a h => h
  · exact fun n a h => h
  · intro n n' h hs
    have hf := started_fields n n' hs
    intro r hr
    rw [hf.1] at hr
    rw [hf.2.1]
    exact h r hr
  · intro n hs hinv
    have hnone : n.raft = none := absent n (by rw [hs]; decide) hinv
    intro r hr
    by_cases h1 : 1 < n.nodes_connected.length
    · simp [Network.settleTimerFire, h1]
    · exfalso
      simp [Network.settleTimerFire, h1, hnone] at hr
  · exact fun n k b h => h
  · exact fun n i s h => h
  · exact fun n m h => h
  · intro n hs hinv
    exact absent n (by rw [hs]; decide) hinv
  · intro n hs hinv
    exact absent n (by rw [hs]; decide) hinv

/-- Witness for C6: a fresh node that settles into SingleNode has no engine. -/
theorem engine_presence_invariant_witness :
    (Network.new.settleTimerFire).1.raft = none := by
  obtain ⟨h1, -, -, -, -, h6, -, -, -, -, h11⟩ := engine_presence_invariant
  exact h11 _ (by decide) (h6 Network.new rfl h1)

/-- Claim C7: the registration loop skips the local bind address; otherwise a
descriptor keyed by the derived id is inserted, overwriting any prior entry
for that id, so registering the same address twice leaves the registry exactly
as registering it once. -/
theorem register_peer_dedup :
    (∀ (n : Network) (addr : String), registerStep addr n addr = n)
    ∧ (∀ (n : Network) (a : String),
        alookup (generate_node_id a) (n.register_node a).nodes
          = some ⟨generate_node_id a, n.id, a⟩)
    ∧ (∀ (n : Network) (a : String) (k : NodeId), k ≠ generate_node_id a →
        alookup k (n.register_node a).nodes = alookup k n.nodes)
    ∧ (∀ (n : Network) (a : String),
        (n.register_node a).register_node a = n.register_node a) := by
  refine ⟨?_, ?_, ?_, ?_⟩
  · intro n addr
    simp [registerStep]
  · intro n a
    exact alookup_hmInsert_self n.nodes (generate_node_id a)
      ⟨generate_node_id a, n.id, a⟩
  · intro n a k hk
    exact alookup_hmInsert_ne n.nodes (generate_node_id a) k
      ⟨generate_node_id a, n.id, a⟩ hk
  · intro n a
    simp [Network.register_node, hmInsert_idem]

/-- Witness for C7 at concrete addresses. -/
theorem register_peer_dedup_witness :
    registerStep "a" Network.new "a" = Network.new
    ∧ (Network.new.register_node "b").register_node "b"
        = Network.new.register_node "b"
    ∧ alookup 99 (Network.new.register_node "b").nodes
        = alookup 99 Network.new.nodes := by
  obtain ⟨h1, -, h3, h4⟩ := register_peer_dedup
  exact ⟨h1 Network.new "a", h4 Network.new "b",
    h3 Network.new "b" 99 (by decide)⟩

/-- Claim C8: `PeerConnected` appends the id to the connected list (a
duplicate id yields one more occurrence, no dedup) and stores the session
handle under the id, overwriting any prior handle for that id only. -/
theorem peer_connected_append_and_overwrite (n : Network) (id : NodeId)
    (s : NodeSessionAddr) :
    (n.handlePeerConnected id s).nodes_connected = n.nodes_connected ++ [id]
    ∧ List.count id (n.handlePeerConnected id s).nodes_connected
        = List.count id n.nodes_connected + 1
    ∧ alookup id (n.handlePeerConnected id s).sessions = some s
    ∧ ∀ k, k ≠ id →
        alookup k (n.handlePeerConnected id s).sessions
          = alookup k n.sessions := by
  refine ⟨rfl, ?_, ?_, ?_⟩
  · simp [Network.handlePeerConnected]
  · exact alookup_hmInsert_self n.sessions id s
  · intro k hk
    exact alookup_hmInsert_ne n.sessions id k s hk

/-- Witness for C8: a reconnect of id 3 duplicates the list entry and
overwrites the session handle, leaving other ids untouched. -/
theorem peer_connected_append_and_overwrite_witness :
    ((Network.new.handlePeerConnected 3 77).handlePeerConnected 3
        88).nodes_connected = [3, 3]
    ∧ alookup 3 ((Network.new.handlePeerConnected 3 77).handlePeerConnected 3
        88).sessions = some 88
    ∧ alookup 5 (Network.new.handlePeerConnected 3 77).sessions
        = alookup 5 Network.new.sessions := by
  have h := peer_connected_append_and_overwrite
    (Network.new.handlePeerConnected 3 77) 3 88
  exact ⟨by decide, h.2.2.1,
    (peer_connected_append_and_overwrite Network.new 3 77).2.2.2 5 (by decide)⟩

/-- Claim C9: the metrics store is an ordered map upserted by node id — after
a push, iteration order is still strictly ascending by id (hence one entry per
id), the pushed snapshot is the one stored for its id, and other ids keep
their previous snapshot. -/
theorem metrics_upsert_latest_wins (n : Network) (m : RaftMetrics)
    (h : List.Pairwise (· < ·) (keysOf n.metrics)) :
    List.Pairwise (· < ·) (keysOf (n.handleRaftMetrics m).metrics)
    ∧ (keysOf (n.handleRaftMetrics m).metrics).Nodup
    ∧ alookup m.id (n.handleRaftMetrics m).metrics = some m
    ∧ ∀ k, k ≠ m.id →
        alookup k (n.handleRaftMetrics m).metrics = alookup k n.metrics := by
  have hp := pairwise_keysOf_btInsert n.metrics m.id m h
  exact ⟨hp, hp.imp fun hab => Nat.ne_of_lt hab,
    alookup_btInsert_self n.metrics m.id m,
    fun k hk => alookup_btInsert_ne n.metrics m.id k m hk⟩

/-- Witness for C9: pushing id 1 at term 1 then term 2 leaves exactly one
entry holding term 2, and ids iterate in ascending order even when pushed out
of order. -/
theorem metrics_upsert_latest_wins_witness :
    alookup 1 ((Network.new.handleRaftMetrics (exMetrics 1 1)).handleRaftMetrics
        (exMetrics 1 2)).metrics = some (exMetrics 1 2)
    ∧ ((Network.new.handleRaftMetrics (exMetrics 1 1)).handleRaftMetrics
        (exMetrics 1 2)).metrics = [(1, exMetrics 1 2)]
    ∧ keysOf ((Network.new.handleRaftMetrics (exMetrics 2 1)).handleRaftMetrics
        (exMetrics 1 1)).metrics = [1, 2] := by
  have h := metrics_upsert_latest_wins
    (Network.new.handleRaftMetrics (exMetrics 1 1)) (exMetrics 1 2) (by decide)
  exact ⟨h.2.2.1, by decide, by decide⟩

/-- Claim C10: the inbound `SendToRaft` handler never mutates the core's
state — the whole `Network` value (registry, connected list, sessions,
metrics, state, id, engine) is unchanged for every envelope, with or without
an engine. -/
theorem send_to_raft_preserves_state (n : Network) (k : MsgTypes)
    (body : String) : (n.handleSendToRaft k body).1 = n := rfl

end Raftor
